import Mathlib

/-!
The collector of mackerel-plugin-postgres-table and its graph metadata.

A shallow embedding of `lib/postgres-table.go`.

* Go strings are Lean strings, `uint64` counters are natural numbers.
* A `float64` that holds a non-negative integer is represented by that integer;
  `float64` below is the conversion `float64(x)` of a `uint64`, rounding to the
  53-bit significand, ties to even.
* A Go `map[string]T` is an association list without repeated keys: `GoMap.assign`
  is `m[k] = v`, `GoMap.lookup` is `m[k]`, the number of entries is the length.
  A nil map is `none`, a non-nil map is `some m`.
* The database is an input: `Sqlx.Connect` and `DB.Queryx` answer with an error or
  a value, a `Rows` cursor is the list of `StructScan` outcomes of the rows that
  `rows.Next()` delivered, together with the error `rows.Err()` holds once `Next`
  has returned false.
* Every call that leaves the process is recorded in `FetchResult.calls`.
-/

namespace MpPostgresTable

/-! ## Data model -/

/-- Go `error` values: the collector never inspects them, it only hands them on. -/
structure Error where
  msg : String
deriving DecidableEq, Repr

/-- PostgresTablePlugin mackerel plugin (source lines 16-26). -/
structure PostgresTablePlugin where
  Host : String
  Port : String
  User : String
  Password : String
  Database : String
  Option : String
  SSLmode : String
  Timeout : Int
  Prefix : String
deriving DecidableEq, Repr

/-- StatTable postgres stat table struct (source lines 29-45). -/
structure StatTable where
  RelName : String
  SeqScan : Nat
  SeqTupRead : Nat
  IdxScan : Nat
  IdxTupFetch : Nat
  NTupIns : Nat
  NTupUpd : Nat
  NTupDel : Nat
  NTupHotUpd : Nat
  NLiveTup : Nat
  NDeadTup : Nat
  VacuumCount : Nat
  AutoVacuumCount : Nat
  AnalyzeCount : Nat
  AutoAnalyzeCount : Nat
deriving DecidableEq, Repr

/-- The number of bits by which `x` exceeds a 53-bit significand; `fuel` bounds
the count, and 11 is enough for a `uint64`. -/
def excessBits : Nat → Nat → Nat
  | 0, _ => 0
  | fuel + 1, x => if x < 2 ^ 53 then 0 else 1 + excessBits fuel (x / 2)

/-- The conversion `float64(x)` of a `uint64`: the nearest value with a 53-bit
significand, ties to the even significand. The result is the integer the
`float64` holds. -/
def float64 (x : Nat) : Nat :=
  let e := excessBits 11 x
  if e = 0 then x
  else
    let q := x / 2 ^ e
    let r := x % 2 ^ e
    let half := 2 ^ (e - 1)
    if half < r ∨ (r = half ∧ q % 2 = 1) then (q + 1) * 2 ^ e else q * 2 ^ e

/-! ## Go maps -/

namespace GoMap

/-- The map index expression `m[k]`, with `none` for an absent key. -/
def lookup {β : Type} : List (String × β) → String → Option β
  | [], _ => none
  | (k', v) :: rest, k => if k' = k then some v else lookup rest k

/-- The map assignment `m[k] = v`: an existing entry is overwritten in place, a new
key adds one entry. -/
def assign {β : Type} : List (String × β) → String → β → List (String × β)
  | [], k, v => [(k, v)]
  | (k', v') :: rest, k, v =>
    if k' = k then (k', v) :: rest else (k', v') :: assign rest k v

/-- The keys present in a map. -/
def keys {β : Type} (m : List (String × β)) : List String := m.map Prod.fst

end GoMap

/-- The type `map[string]float64`. -/
abbrev MetricMap := List (String × Nat)

/-! ## go-mackerel-plugin types -/

/-- The type `mp.Metrics`, with the fields the plugin sets; `Diff` is false when
the literal leaves it out. -/
structure Metrics where
  Name : String
  Label : String
  Diff : Bool := false
deriving DecidableEq, Repr

/-- The type `mp.Graphs`, with the fields the plugin sets. -/
structure Graphs where
  Label : String
  Unit : String
  Metrics : List Metrics
deriving DecidableEq, Repr

/-! ## strings.Title -/

/-- The Unicode tables of Go's `unicode` package that `strings.Title` consults. -/
structure UnicodeTables where
  ToTitle : Char → Char
  IsLetter : Char → Bool
  IsDigit : Char → Bool
  IsSpace : Char → Bool

/-- The helper `isSeparator` of Go's `strings` package. -/
def isSeparator (u : UnicodeTables) (r : Char) : Bool :=
  if r.toNat ≤ 0x7F then
    if '0'.toNat ≤ r.toNat ∧ r.toNat ≤ '9'.toNat then false
    else if 'a'.toNat ≤ r.toNat ∧ r.toNat ≤ 'z'.toNat then false
    else if 'A'.toNat ≤ r.toNat ∧ r.toNat ≤ 'Z'.toNat then false
    else if r = '_' then false
    else true
  else if u.IsLetter r || u.IsDigit r then false
  else u.IsSpace r

/-- The rune mapping inside `strings.Title`: `prev` is the rune seen before. -/
def titleRunes (u : UnicodeTables) : Char → List Char → List Char
  | _, [] => []
  | prev, r :: rest =>
    (if isSeparator u prev then u.ToTitle r else r) :: titleRunes u r rest

/-- Go's `strings.Title`: the first letter of every word mapped to title case. -/
def Title (u : UnicodeTables) (s : String) : String :=
  String.mk (titleRunes u ' ' s.data)

/-- The tables restricted to ASCII, where title case is upper case. -/
def asciiTables : UnicodeTables where
  ToTitle := Char.toUpper
  IsLetter := Char.isAlpha
  IsDigit := Char.isDigit
  IsSpace := Char.isWhitespace

/-! ## The plugin -/

/-- MetricKeyPrefix interface for PluginWithPrefix (source lines 48-53). The
receiver is a pointer: the result is the returned string and the plugin after the
call. -/
def MetricKeyPrefix (p : PostgresTablePlugin) : String × PostgresTablePlugin :=
  if p.Prefix = "" then
    let p' := { p with Prefix := "postgres" }
    (p'.Prefix, p')
  else
    (p.Prefix, p)

/-- GraphDefinition interface for mackerelplugin (source lines 56-98). The map
literal is listed in source order. -/
def GraphDefinition (u : UnicodeTables) (p : PostgresTablePlugin) :
    List (String × Graphs) :=
  let labelPrefix := Title u p.Prefix
  [ ("table.scan.#",
      { Label := labelPrefix ++ " Table Scans"
        Unit := "integer"
        Metrics := [
          { Name := "seq_scan", Label := "Sequential Scans", Diff := true },
          { Name := "seq_tup_read", Label := "Rows Fetched by Sequential Scan", Diff := true },
          { Name := "idx_scan", Label := "Index Scans", Diff := true },
          { Name := "idx_tup_fetch", Label := "Rows Fetched by Index Scan", Diff := true } ] }),
    ("table.row.#",
      { Label := labelPrefix ++ " Table Rows"
        Unit := "integer"
        Metrics := [
          { Name := "n_tup_ins", Label := "Inserted Rows", Diff := true },
          { Name := "n_tup_upd", Label := "Updated Rows", Diff := true },
          { Name := "n_tup_del", Label := "Deleted Rows", Diff := true },
          { Name := "n_tup_hot_upd", Label := "HOT Updated Rows", Diff := true },
          { Name := "n_live_tup", Label := "Estimated Live Rows" },
          { Name := "n_dead_tup", Label := "Estimated Dead Rows" } ] }),
    ("table.vacuum.#",
      { Label := labelPrefix ++ " Table Vacuume Counts"
        Unit := "integer"
        Metrics := [
          { Name := "vacuum_count", Label := "Vacuumd Counts", Diff := true },
          { Name := "autovacuum_count", Label := "Auto Vacuume Counts", Diff := true } ] }),
    ("table.analyze.#",
      { Label := labelPrefix ++ " Table Analyze Counts"
        Unit := "integer"
        Metrics := [
          { Name := "analyze_count", Label := "Analyze Counts", Diff := true },
          { Name := "autoanalyze_count", Label := "Auto Analyzed Counts", Diff := true } ] }) ]

/-! ## The database boundary -/

/-- The cursor `*sqlx.Rows`. `scans` holds, for every row that `rows.Next()`
delivered, the outcome of `rows.StructScan(&stat)`. `Next` returns false both at the
end of the result set and when fetching the next row fails; `err` is what
`rows.Err()` holds then. -/
structure Rows where
  scans : List (Except Error StatTable)
  err : Option Error

/-- An open `*sqlx.DB`: what `db.Queryx(query)` answers. -/
structure DB where
  Queryx : String → Except Error Rows

/-- The driver: what `sqlx.Connect(driverName, dataSourceName)` answers. -/
structure Sqlx where
  Connect : String → String → Except Error DB

/-- The calls `FetchMetrics` makes on the database, in order. -/
inductive Call where
  | connect (driverName dataSourceName : String)
  | queryx (query : String)
  | close
deriving DecidableEq, Repr

/-- The two results of `FetchMetrics` and the calls it made. -/
structure FetchResult where
  metrics : Option MetricMap
  err : Option Error
  calls : List Call

/-- The connection string of source line 103,
`fmt.Sprintf("user=%s password=%s host=%s port=%s dbname=%s sslmode=%s connect_timeout=%d", ...)`. -/
def dataSourceName (p : PostgresTablePlugin) : String :=
  "user=" ++ p.User ++ " password=" ++ p.Password ++ " host=" ++ p.Host ++
    " port=" ++ p.Port ++ " dbname=" ++ p.Database ++ " sslmode=" ++ p.SSLmode ++
    " connect_timeout=" ++ toString p.Timeout

/-- The query of source lines 109-112; `fmt.Sprintf("%s %s", query, p.Option)` is
the two strings with one space between them. -/
def statQuery (p : PostgresTablePlugin) : String :=
  let query := "SELECT * FROM pg_stat_user_tables"
  if p.Option ≠ "" then query ++ " " ++ p.Option else query

/-- The fourteen assignments of source lines 127-143 for one scanned row. -/
def expandRow (metrics : MetricMap) (stat : StatTable) : MetricMap :=
  -- scan
  let metrics := GoMap.assign metrics ("table.scan." ++ stat.RelName ++ ".seq_scan") (float64 stat.SeqScan)
  let metrics := GoMap.assign metrics ("table.scan." ++ stat.RelName ++ ".seq_tup_read") (float64 stat.SeqTupRead)
  let metrics := GoMap.assign metrics ("table.scan." ++ stat.RelName ++ ".idx_scan") (float64 stat.IdxScan)
  let metrics := GoMap.assign metrics ("table.scan." ++ stat.RelName ++ ".idx_tup_fetch") (float64 stat.IdxTupFetch)
  -- row
  let metrics := GoMap.assign metrics ("table.row." ++ stat.RelName ++ ".n_tup_ins") (float64 stat.NTupIns)
  let metrics := GoMap.assign metrics ("table.row." ++ stat.RelName ++ ".n_tup_upd") (float64 stat.NTupUpd)
  let metrics := GoMap.assign metrics ("table.row." ++ stat.RelName ++ ".n_tup_del") (float64 stat.NTupDel)
  let metrics := GoMap.assign metrics ("table.row." ++ stat.RelName ++ ".n_tup_hot_upd") (float64 stat.NTupHotUpd)
  let metrics := GoMap.assign metrics ("table.row." ++ stat.RelName ++ ".n_live_tup") (float64 stat.NLiveTup)
  let metrics := GoMap.assign metrics ("table.row." ++ stat.RelName ++ ".n_dead_tup") (float64 stat.NDeadTup)
  -- vacuum
  let metrics := GoMap.assign metrics ("table.vacuum." ++ stat.RelName ++ ".vacuum_count") (float64 stat.VacuumCount)
  let metrics := GoMap.assign metrics ("table.vacuum." ++ stat.RelName ++ ".autovacuum_count") (float64 stat.AutoVacuumCount)
  -- analyze
  let metrics := GoMap.assign metrics ("table.analyze." ++ stat.RelName ++ ".analyze_count") (float64 stat.AnalyzeCount)
  let metrics := GoMap.assign metrics ("table.analyze." ++ stat.RelName ++ ".autoanalyze_count") (float64 stat.AutoAnalyzeCount)
  metrics

/-- The loop `for rows.Next() { ... }` of source lines 121-144 over the rows the
cursor delivers: a failed `StructScan` leaves the function with that error, the
end of the rows leaves the loop with the map built so far. -/
def rowLoop (metrics : MetricMap) : List (Except Error StatTable) → Except Error MetricMap
  | [] => .ok metrics
  | .error err :: _ => .error err
  | .ok stat :: rest => rowLoop (expandRow metrics stat) rest

/-- FetchMetrics interface for mackerelplugin (source lines 101-146). After the
loop the function returns `metrics, nil`; `rows.Err()` is not read. The deferred
`db.Close()` runs on every path after a successful connect. -/
def FetchMetrics (p : PostgresTablePlugin) (sqlx : Sqlx) : FetchResult :=
  match sqlx.Connect "postgres" (dataSourceName p) with
  | .error err => ⟨none, some err, [.connect "postgres" (dataSourceName p)]⟩
  | .ok db =>
    let query := statQuery p
    match db.Queryx query with
    | .error err =>
      ⟨none, some err, [.connect "postgres" (dataSourceName p), .queryx query, .close]⟩
    | .ok rows =>
      match rowLoop [] rows.scans with
      | .error err =>
        ⟨none, some err, [.connect "postgres" (dataSourceName p), .queryx query, .close]⟩
      | .ok metrics =>
        ⟨some metrics, none, [.connect "postgres" (dataSourceName p), .queryx query, .close]⟩


/-! ## A table view of the fourteen assignments -/

/-- The constant text before and after the relation name in the fourteen keys of
`expandRow`, in source order. -/
def keySlots : List (String × String) :=
  [ ("table.scan.", ".seq_scan"), ("table.scan.", ".seq_tup_read"),
    ("table.scan.", ".idx_scan"), ("table.scan.", ".idx_tup_fetch"),
    ("table.row.", ".n_tup_ins"), ("table.row.", ".n_tup_upd"),
    ("table.row.", ".n_tup_del"), ("table.row.", ".n_tup_hot_upd"),
    ("table.row.", ".n_live_tup"), ("table.row.", ".n_dead_tup"),
    ("table.vacuum.", ".vacuum_count"), ("table.vacuum.", ".autovacuum_count"),
    ("table.analyze.", ".analyze_count"), ("table.analyze.", ".autoanalyze_count") ]

/-- The key a slot gives for a relation name. -/
def slotKey (relname : String) (slot : String × String) : String :=
  slot.1 ++ relname ++ slot.2

/-- The fourteen keys `expandRow` assigns for a row, in source order. -/
def rowKeys (stat : StatTable) : List String := keySlots.map (slotKey stat.RelName)

/-- The fourteen counters of a row, in the order of `keySlots`. -/
def counters (stat : StatTable) : List Nat :=
  [ stat.SeqScan, stat.SeqTupRead, stat.IdxScan, stat.IdxTupFetch,
    stat.NTupIns, stat.NTupUpd, stat.NTupDel, stat.NTupHotUpd, stat.NLiveTup, stat.NDeadTup,
    stat.VacuumCount, stat.AutoVacuumCount, stat.AnalyzeCount, stat.AutoAnalyzeCount ]

/-- The fourteen (key, value) pairs `expandRow` assigns for a row, in source order. -/
def rowEntries (stat : StatTable) : List (String × Nat) :=
  (rowKeys stat).zip ((counters stat).map float64)

/-- A run of map assignments. -/
def assignAll (m : MetricMap) (kvs : List (String × Nat)) : MetricMap :=
  kvs.foldl (fun acc kv => GoMap.assign acc kv.1 kv.2) m

/-- Two texts part ways at some position: neither is the start of the other. -/
def diverge : List Char → List Char → Bool
  | x :: p, y :: q => if x = y then diverge p q else true
  | _, _ => false

/-- The query of `p` succeeds against `sqlx` and its cursor delivers the rows
`rows`, every one of them scanned without error. -/
def Delivers (p : PostgresTablePlugin) (sqlx : Sqlx) (rows : List StatTable) : Prop :=
  ∃ db r, sqlx.Connect "postgres" (dataSourceName p) = .ok db ∧
    db.Queryx (statQuery p) = .ok r ∧ r.scans = rows.map .ok

/-- A database that accepts every connection and answers every query with the
cursor `rows`. -/
def serving (rows : Rows) : Sqlx :=
  ⟨fun _ _ => .ok ⟨fun _ => .ok rows⟩⟩

/-- A plugin value as `Do` builds it from the flag defaults. -/
def defaultPlugin : PostgresTablePlugin :=
  { Host := "localhost", Port := "5432", User := "postgres", Password := "",
    Database := "", Option := "", SSLmode := "disable", Timeout := 5, Prefix := "postgres" }

/-- The row of the round-trip scenario. -/
def orders : StatTable :=
  { RelName := "orders", SeqScan := 5, SeqTupRead := 0, IdxScan := 10, IdxTupFetch := 0,
    NTupIns := 0, NTupUpd := 0, NTupDel := 0, NTupHotUpd := 0, NLiveTup := 100, NDeadTup := 3,
    VacuumCount := 1, AutoVacuumCount := 0, AnalyzeCount := 0, AutoAnalyzeCount := 0 }

/-- A second row, for scenarios with more than one relation. -/
def users : StatTable :=
  { RelName := "users", SeqScan := 7, SeqTupRead := 70, IdxScan := 0, IdxTupFetch := 0,
    NTupIns := 2, NTupUpd := 0, NTupDel := 0, NTupHotUpd := 0, NLiveTup := 2, NDeadTup := 0,
    VacuumCount := 0, AutoVacuumCount := 0, AnalyzeCount := 0, AutoAnalyzeCount := 1 }

/-- A row with the relation name of `orders` and other counters, as the view
reports it for a table of the same name in a second schema. -/
def ordersArchive : StatTable :=
  { orders with SeqScan := 2 }

/-- A row whose relation name holds the separator and a field name. -/
def dottedName : StatTable :=
  { orders with RelName := "x.seq_scan" }

/-- A row whose relation name is the start of the name of `dottedName`. -/
def plainName : StatTable :=
  { orders with RelName := "x" }

/-- The fourteen declared (group, field) pairs. -/
def declaredFields : List (String × String) :=
  [ ("scan", "seq_scan"), ("scan", "seq_tup_read"), ("scan", "idx_scan"),
    ("scan", "idx_tup_fetch"),
    ("row", "n_tup_ins"), ("row", "n_tup_upd"), ("row", "n_tup_del"), ("row", "n_tup_hot_upd"),
    ("row", "n_live_tup"), ("row", "n_dead_tup"),
    ("vacuum", "vacuum_count"), ("vacuum", "autovacuum_count"),
    ("analyze", "analyze_count"), ("analyze", "autoanalyze_count") ]

/-- The key construction in the words of the specification:
`"table." + group + "." + relname + "." + field`. -/
def metricKey (group relname field : String) : String :=
  "table." ++ group ++ "." ++ relname ++ "." ++ field

/-- The slot of `keySlots` a (group, field) pair stands for. -/
def toSlot (gf : String × String) : String × String :=
  ("table." ++ gf.1 ++ ".", "." ++ gf.2)

/-- Go's `strings.HasPrefix`. -/
def hasPrefix (s pre : String) : Bool := pre.data.isPrefixOf s.data

/-- Go's `strings.HasSuffix`. -/
def hasSuffix (s suf : String) : Bool := suf.data.isSuffixOf s.data

/-- The graph name with every `#` replaced by the relation name. -/
def fillWildcard (name relname : String) : String :=
  String.mk (name.data.flatMap (fun c => if c = '#' then relname.data else [c]))

/-- The keys a graph definition declares for a relation: every graph name with `#`
replaced by the relation name, followed by `.` and a metric name declared under that
graph. -/
def declaredKeys (graphs : List (String × Graphs)) (relname : String) : List String :=
  graphs.flatMap (fun g =>
    g.2.Metrics.map (fun mt => fillWildcard g.1 relname ++ "." ++ mt.Name))

/-- The plugin value of the flag `-metric-key-prefix ""`. -/
def emptyPrefixPlugin : PostgresTablePlugin :=
  { defaultPlugin with Prefix := "" }

/-- A plugin value with a query option. -/
def filteredPlugin : PostgresTablePlugin :=
  { defaultPlugin with Option := "ORDER BY relname" }

theorem expandRow_eq (m : MetricMap) (s : StatTable) :
    expandRow m s = assignAll m (rowEntries s) := by
  simp only [expandRow, assignAll, rowEntries, rowKeys, keySlots, counters, slotKey, List.map,
    List.zip, List.zipWith, List.foldl]

theorem diverge_append_ne {p q : List Char} (h : diverge p q = true) (x y : List Char) :
    p ++ x ≠ q ++ y := by
  induction p generalizing q with
  | nil => simp [diverge] at h
  | cons a p ih =>
    cases q with
    | nil => simp [diverge] at h
    | cons b q =>
      simp only [diverge] at h
      intro heq
      simp only [List.cons_append, List.cons.injEq] at heq
      by_cases hab : a = b
      · simp only [hab, if_true] at h
        exact ih h heq.2
      · exact hab heq.1

theorem split_at_last {c : Char} {f g : List Char} (hf : c ∉ f) (hg : c ∉ g) :
    ∀ {x y : List Char}, x ++ c :: f = y ++ c :: g → x = y ∧ f = g := by
  intro x
  induction x with
  | nil =>
    intro y h
    cases y with
    | nil => simpa using h
    | cons b y =>
      simp only [List.nil_append, List.cons_append, List.cons.injEq] at h
      exact absurd (h.2 ▸ (by simp : c ∈ y ++ c :: g)) hf
  | cons a x ih =>
    intro y h
    cases y with
    | nil =>
      simp only [List.nil_append, List.cons_append, List.cons.injEq] at h
      exact absurd (h.2 ▸ (by simp : c ∈ x ++ c :: f)) hg
    | cons b y =>
      simp only [List.cons_append, List.cons.injEq] at h
      obtain ⟨h1, h2⟩ := ih h.2
      exact ⟨by rw [h.1, h1], h2⟩

theorem keySlots_shape :
    ∀ a ∈ keySlots, ∀ b ∈ keySlots,
      (a.1 = b.1 ∨ diverge a.1.data b.1.data = true) ∧
        (a.2.data.head? = some '.' ∧ '.' ∉ a.2.data.tail) := by
  decide!

theorem slotKey_inj {a b : String × String} (ha : a ∈ keySlots) (hb : b ∈ keySlots)
    {R1 R2 : String} (h : slotKey R1 a = slotKey R2 b) : R1 = R2 ∧ a = b := by
  obtain ⟨hpre, hda, hfa⟩ := keySlots_shape a ha b hb
  obtain ⟨-, hdb, hfb⟩ := keySlots_shape b hb a ha
  have hd : a.1.data ++ (R1.data ++ a.2.data) = b.1.data ++ (R2.data ++ b.2.data) := by
    have := congrArg String.data h
    simpa [slotKey, String.data_append, List.append_assoc] using this
  rcases hpre with hpre | hdiv
  · rw [hpre] at hd
    have hd' := List.append_cancel_left hd
    obtain ⟨fa, hfa'⟩ : ∃ fa, a.2.data = '.' :: fa := by
      cases hx : a.2.data with
      | nil => simp [hx] at hda
      | cons c t => simp [hx] at hda; exact ⟨t, by rw [hda]⟩
    obtain ⟨fb, hfb'⟩ : ∃ fb, b.2.data = '.' :: fb := by
      cases hx : b.2.data with
      | nil => simp [hx] at hdb
      | cons c t => simp [hx] at hdb; exact ⟨t, by rw [hdb]⟩
    rw [hfa'] at hfa hd'
    rw [hfb'] at hfb hd'
    simp only [List.tail_cons] at hfa hfb
    obtain ⟨hR, hf⟩ := split_at_last hfa hfb hd'
    refine ⟨String.ext hR, Prod.ext hpre (String.ext ?_)⟩
    rw [hfa', hfb', hf]
  · exact absurd hd (diverge_append_ne hdiv _ _)


/-- Counters below `2 ^ 53` are converted without rounding. -/
theorem float64_exact (x : Nat) (h : x < 2 ^ 53) : float64 x = x := by
  have h' : x < 9007199254740992 := by norm_num at h; exact h
  simp [float64, excessBits, h']

/-- The cursor error is never read: the result is the same with and without it. -/
theorem fetchMetrics_ignores_rows_err (p : PostgresTablePlugin)
    (scans : List (Except Error StatTable)) (e : Option Error) :
    (FetchMetrics p (serving ⟨scans, e⟩)).metrics = (FetchMetrics p (serving ⟨scans, none⟩)).metrics ∧
    (FetchMetrics p (serving ⟨scans, e⟩)).err = (FetchMetrics p (serving ⟨scans, none⟩)).err :=
  ⟨rfl, rfl⟩

/-! ## Go maps: lookup and keys after assignments -/

namespace GoMap

theorem lookup_assign {β : Type} (m : List (String × β)) (k k' : String) (v : β) :
    lookup (assign m k v) k' = if k = k' then some v else lookup m k' := by
  induction m with
  | nil => simp [assign, lookup]
  | cons e m ih =>
    obtain ⟨k0, v0⟩ := e
    by_cases h0 : k0 = k
    · subst h0
      by_cases h : k0 = k' <;> simp [assign, lookup, h]
    · by_cases h1 : k0 = k'
      · subst h1
        simp [assign, lookup, h0, Ne.symm h0]
      · simp [assign, lookup, h0, h1, ih]

theorem keys_assign {β : Type} (m : List (String × β)) (k : String) (v : β) :
    keys (assign m k v) = if k ∈ keys m then keys m else keys m ++ [k] := by
  induction m with
  | nil => simp [assign, keys]
  | cons e m ih =>
    obtain ⟨k0, v0⟩ := e
    by_cases h0 : k0 = k
    · subst h0
      simp [assign, keys]
    · have ih' : List.map Prod.fst (assign m k v) =
          if k ∈ List.map Prod.fst m then List.map Prod.fst m else List.map Prod.fst m ++ [k] := ih
      by_cases hm : k ∈ List.map Prod.fst m
      · simp only [assign, keys, h0, if_false, List.map_cons, ih', hm, if_true, List.mem_cons,
          or_true]
      · have hne : ¬ (k = k0 ∨ k ∈ List.map Prod.fst m) := by
          rintro (h | h)
          · exact h0 h.symm
          · exact hm h
        have hcons : k ∉ k0 :: List.map Prod.fst m := by simpa using hne
        simp only [assign, keys, h0, if_false, List.map_cons, ih', hm, if_neg hcons,
          List.cons_append]

theorem mem_keys_iff {β : Type} (m : List (String × β)) (k : String) :
    k ∈ keys m ↔ (lookup m k).isSome = true := by
  induction m with
  | nil => simp [keys, lookup]
  | cons e m ih =>
    obtain ⟨k0, v0⟩ := e
    have ih' : k ∈ List.map Prod.fst m ↔ (lookup m k).isSome = true := ih
    by_cases h : k0 = k
    · subst h
      simp [keys, lookup]
    · simp [keys, lookup, h, Ne.symm h, ih']

theorem nodup_keys_assign {β : Type} (m : List (String × β)) (k : String) (v : β)
    (h : (keys m).Nodup) : (keys (assign m k v)).Nodup := by
  rw [keys_assign]
  by_cases hm : k ∈ keys m
  · simpa [hm] using h
  · simp only [hm, if_false]
    exact List.Nodup.append h (List.nodup_singleton k) (by
      intro a ha hb
      simp only [List.mem_singleton] at hb
      exact hm (hb ▸ ha))

end GoMap

/-! ## Runs of assignments -/

theorem assignAll_append (m : MetricMap) (xs ys : List (String × Nat)) :
    assignAll m (xs ++ ys) = assignAll (assignAll m xs) ys := by
  simp [assignAll, List.foldl_append]

theorem lookup_assignAll_of_not_mem (kvs : List (String × Nat)) (m : MetricMap) (k : String)
    (h : k ∉ kvs.map Prod.fst) : GoMap.lookup (assignAll m kvs) k = GoMap.lookup m k := by
  induction kvs generalizing m with
  | nil => rfl
  | cons kv kvs ih =>
    simp only [List.map_cons, List.mem_cons, not_or] at h
    have : assignAll m (kv :: kvs) = assignAll (GoMap.assign m kv.1 kv.2) kvs := rfl
    rw [this, ih _ h.2, GoMap.lookup_assign, if_neg (Ne.symm h.1)]

theorem lookup_assignAll_last (m : MetricMap) (xs ys : List (String × Nat)) (k : String)
    (v : Nat) (h : k ∉ ys.map Prod.fst) :
    GoMap.lookup (assignAll m (xs ++ (k, v) :: ys)) k = some v := by
  rw [assignAll_append]
  have : assignAll (assignAll m xs) ((k, v) :: ys) =
      assignAll (GoMap.assign (assignAll m xs) k v) ys := rfl
  rw [this, lookup_assignAll_of_not_mem _ _ _ h, GoMap.lookup_assign, if_pos rfl]

theorem keys_assignAll_fresh (kvs : List (String × Nat)) (m : MetricMap)
    (hnd : (kvs.map Prod.fst).Nodup) (hfresh : ∀ k ∈ kvs.map Prod.fst, k ∉ GoMap.keys m) :
    GoMap.keys (assignAll m kvs) = GoMap.keys m ++ kvs.map Prod.fst := by
  induction kvs generalizing m with
  | nil => simp [assignAll]
  | cons kv kvs ih =>
    have hstep : assignAll m (kv :: kvs) = assignAll (GoMap.assign m kv.1 kv.2) kvs := rfl
    simp only [List.map_cons, List.nodup_cons] at hnd
    have hk : kv.1 ∉ GoMap.keys m := hfresh kv.1 (by simp)
    have hkeys : GoMap.keys (GoMap.assign m kv.1 kv.2) = GoMap.keys m ++ [kv.1] := by
      rw [GoMap.keys_assign, if_neg hk]
    rw [hstep, ih _ hnd.2, hkeys]
    · simp
    · intro k hkmem
      rw [hkeys]
      simp only [List.mem_append, List.mem_singleton, not_or]
      refine ⟨hfresh k (by simp [hkmem]), ?_⟩
      rintro rfl
      exact hnd.1 hkmem

theorem nodup_keys_assignAll (kvs : List (String × Nat)) (m : MetricMap)
    (h : (GoMap.keys m).Nodup) : (GoMap.keys (assignAll m kvs)).Nodup := by
  induction kvs generalizing m with
  | nil => exact h
  | cons kv kvs ih => exact ih _ (GoMap.nodup_keys_assign m kv.1 kv.2 h)

/-! ## Rows of the result -/

theorem keySlots_nodup : keySlots.Nodup := by decide!

theorem rowEntries_keys (s : StatTable) : (rowEntries s).map Prod.fst = rowKeys s := by
  simp [rowEntries, rowKeys, keySlots, counters]

theorem rowKeys_nodup (s : StatTable) : (rowKeys s).Nodup :=
  List.Nodup.map_on (fun _ ha _ hb h => (slotKey_inj ha hb h).2) keySlots_nodup

theorem rowKeys_disjoint {s t : StatTable} (h : s.RelName ≠ t.RelName) :
    ∀ k ∈ rowKeys s, k ∉ rowKeys t := by
  intro k hs ht
  simp only [rowKeys, List.mem_map] at hs ht
  obtain ⟨a, ha, rfl⟩ := hs
  obtain ⟨b, hb, hab⟩ := ht
  exact h (slotKey_inj hb ha hab).1.symm

theorem foldl_expandRow (rows : List StatTable) (m : MetricMap) :
    rows.foldl expandRow m = assignAll m (rows.flatMap rowEntries) := by
  induction rows generalizing m with
  | nil => rfl
  | cons s rows ih =>
    rw [List.foldl_cons, ih, expandRow_eq, List.flatMap_cons, assignAll_append]

theorem rowLoop_ok (rows : List StatTable) (m : MetricMap) :
    rowLoop m (rows.map .ok) = .ok (rows.foldl expandRow m) := by
  induction rows generalizing m with
  | nil => rfl
  | cons s rows ih => simpa [rowLoop] using ih (expandRow m s)

theorem flatMap_entries_keys (rows : List StatTable) :
    (rows.flatMap rowEntries).map Prod.fst = rows.flatMap rowKeys := by
  induction rows with
  | nil => rfl
  | cons s rows ih => simp [List.flatMap_cons, rowEntries_keys, ih]

theorem mem_flatMap_rowKeys {rows : List StatTable} {k : String} :
    k ∈ rows.flatMap rowKeys ↔ ∃ t ∈ rows, k ∈ rowKeys t := by
  simp [List.mem_flatMap]

theorem length_flatMap_rowKeys (rows : List StatTable) :
    (rows.flatMap rowKeys).length = 14 * rows.length := by
  induction rows with
  | nil => rfl
  | cons s rows ih =>
    have h14 : (rowKeys s).length = 14 := by simp [rowKeys, keySlots]
    rw [List.flatMap_cons, List.length_append, ih, h14, List.length_cons]
    omega

theorem nodup_flatMap_rowKeys {rows : List StatTable}
    (h : (rows.map StatTable.RelName).Nodup) : (rows.flatMap rowKeys).Nodup := by
  induction rows with
  | nil => simp
  | cons s rows ih =>
    simp only [List.map_cons, List.nodup_cons] at h
    rw [List.flatMap_cons]
    refine List.Nodup.append (rowKeys_nodup s) (ih h.2) ?_
    intro k hk hk2
    obtain ⟨t, ht, hkt⟩ := mem_flatMap_rowKeys.mp hk2
    have hne : s.RelName ≠ t.RelName := by
      intro heq
      exact h.1 (heq ▸ List.mem_map_of_mem StatTable.RelName ht)
    exact rowKeys_disjoint hne k hk hkt

/-- What `FetchMetrics` returns once the query delivered `rows`. -/
theorem fetchMetrics_of_delivers {p : PostgresTablePlugin} {sqlx : Sqlx}
    {rows : List StatTable} (h : Delivers p sqlx rows) :
    (FetchMetrics p sqlx).metrics = some (assignAll [] (rows.flatMap rowEntries)) ∧
      (FetchMetrics p sqlx).err = none := by
  obtain ⟨db, r, hc, hq, hr⟩ := h
  simp only [FetchMetrics, hc, hq, hr, rowLoop_ok, foldl_expandRow, and_self]

theorem delivers_serving (p : PostgresTablePlugin) (rows : List StatTable) (e : Option Error) :
    Delivers p (serving ⟨rows.map .ok, e⟩) rows :=
  ⟨_, _, rfl, rfl, rfl⟩

theorem lookup_row_entry (m : MetricMap) (pre post : List StatTable) (s : StatTable)
    (hlast : ∀ t ∈ post, t.RelName ≠ s.RelName) {k : String} {v : Nat}
    (hkv : (k, v) ∈ rowEntries s) :
    GoMap.lookup (assignAll m ((pre ++ s :: post).flatMap rowEntries)) k = some v := by
  obtain ⟨A, B, hAB⟩ := List.append_of_mem hkv
  have hnd : ((rowEntries s).map Prod.fst).Nodup := by
    rw [rowEntries_keys]; exact rowKeys_nodup s
  rw [hAB, List.map_append, List.map_cons] at hnd
  have hkB : k ∉ B.map Prod.fst := by
    have := (List.nodup_append.mp hnd).2.1
    exact (List.nodup_cons.mp this).1
  have hks : k ∈ rowKeys s := by
    rw [← rowEntries_keys]
    exact List.mem_map_of_mem Prod.fst hkv
  have hkpost : k ∉ (post.flatMap rowEntries).map Prod.fst := by
    rw [flatMap_entries_keys]
    intro hmem
    obtain ⟨t, ht, hkt⟩ := mem_flatMap_rowKeys.mp hmem
    exact rowKeys_disjoint (hlast t ht) k hkt hks
  have hlist : (pre ++ s :: post).flatMap rowEntries =
      (pre.flatMap rowEntries ++ A) ++ (k, v) :: (B ++ post.flatMap rowEntries) := by
    rw [List.flatMap_append, List.flatMap_cons, hAB]
    simp [List.append_assoc]
  rw [hlist]
  apply lookup_assignAll_last
  rw [List.map_append, List.mem_append]
  rintro (h | h)
  · exact hkB h
  · exact hkpost h

/-- C1: once the query delivered a sequence of rows, the map `FetchMetrics` returns
holds, for every row `s` that no later row of the sequence shares its relation name
with, all fourteen keys of `s`, each with the matching counter of `s` converted to
`float64`; a zero counter is stored as zero. -/
theorem fetchMetrics_last_row_values (p : PostgresTablePlugin) (sqlx : Sqlx)
    (pre post : List StatTable) (s : StatTable)
    (hrows : Delivers p sqlx (pre ++ s :: post))
    (hlast : ∀ t ∈ post, t.RelName ≠ s.RelName) :
    ∃ m, (FetchMetrics p sqlx).metrics = some m ∧ (FetchMetrics p sqlx).err = none ∧
      GoMap.lookup m ("table.scan." ++ s.RelName ++ ".seq_scan") = some (float64 s.SeqScan) ∧
      GoMap.lookup m ("table.scan." ++ s.RelName ++ ".seq_tup_read") = some (float64 s.SeqTupRead) ∧
      GoMap.lookup m ("table.scan." ++ s.RelName ++ ".idx_scan") = some (float64 s.IdxScan) ∧
      GoMap.lookup m ("table.scan." ++ s.RelName ++ ".idx_tup_fetch") = some (float64 s.IdxTupFetch) ∧
      GoMap.lookup m ("table.row." ++ s.RelName ++ ".n_tup_ins") = some (float64 s.NTupIns) ∧
      GoMap.lookup m ("table.row." ++ s.RelName ++ ".n_tup_upd") = some (float64 s.NTupUpd) ∧
      GoMap.lookup m ("table.row." ++ s.RelName ++ ".n_tup_del") = some (float64 s.NTupDel) ∧
      GoMap.lookup m ("table.row." ++ s.RelName ++ ".n_tup_hot_upd") = some (float64 s.NTupHotUpd) ∧
      GoMap.lookup m ("table.row." ++ s.RelName ++ ".n_live_tup") = some (float64 s.NLiveTup) ∧
      GoMap.lookup m ("table.row." ++ s.RelName ++ ".n_dead_tup") = some (float64 s.NDeadTup) ∧
      GoMap.lookup m ("table.vacuum." ++ s.RelName ++ ".vacuum_count") = some (float64 s.VacuumCount) ∧
      GoMap.lookup m ("table.vacuum." ++ s.RelName ++ ".autovacuum_count") = some (float64 s.AutoVacuumCount) ∧
      GoMap.lookup m ("table.analyze." ++ s.RelName ++ ".analyze_count") = some (float64 s.AnalyzeCount) ∧
      GoMap.lookup m ("table.analyze." ++ s.RelName ++ ".autoanalyze_count") = some (float64 s.AutoAnalyzeCount) ∧
      float64 0 = 0 := by
  obtain ⟨hm, he⟩ := fetchMetrics_of_delivers hrows
  have key : ∀ {k : String} {v : Nat}, (k, v) ∈ rowEntries s →
      GoMap.lookup (assignAll [] ((pre ++ s :: post).flatMap rowEntries)) k = some v :=
    fun hkv => lookup_row_entry [] pre post s hlast hkv
  refine ⟨_, hm, he, ?_, ?_, ?_, ?_, ?_, ?_, ?_, ?_, ?_, ?_, ?_, ?_, ?_, ?_, by decide⟩ <;>
    exact key (by simp [rowEntries, rowKeys, keySlots, counters, slotKey])

/-- C1, the round-trip scenario: the single row `orders` gives 5, 10, 100, 3 and 1 at
the five keys with a non-zero counter and 0 at the nine others. -/
theorem fetchMetrics_last_row_values_witness :
    Delivers defaultPlugin (serving ⟨[.ok orders], none⟩) ([] ++ orders :: []) ∧
    (∀ t ∈ ([] : List StatTable), t.RelName ≠ orders.RelName) ∧
    (FetchMetrics defaultPlugin (serving ⟨[.ok orders], none⟩)).metrics =
      some [("table.scan.orders.seq_scan", 5), ("table.scan.orders.seq_tup_read", 0),
        ("table.scan.orders.idx_scan", 10), ("table.scan.orders.idx_tup_fetch", 0),
        ("table.row.orders.n_tup_ins", 0), ("table.row.orders.n_tup_upd", 0),
        ("table.row.orders.n_tup_del", 0), ("table.row.orders.n_tup_hot_upd", 0),
        ("table.row.orders.n_live_tup", 100), ("table.row.orders.n_dead_tup", 3),
        ("table.vacuum.orders.vacuum_count", 1), ("table.vacuum.orders.autovacuum_count", 0),
        ("table.analyze.orders.analyze_count", 0), ("table.analyze.orders.autoanalyze_count", 0)] ∧
    GoMap.lookup ((FetchMetrics defaultPlugin (serving ⟨[.ok orders], none⟩)).metrics.getD [])
      ("table.scan." ++ orders.RelName ++ ".seq_scan") = some (float64 orders.SeqScan) :=
  have h := fetchMetrics_last_row_values defaultPlugin (serving ⟨[.ok orders], none⟩) [] []
    orders (delivers_serving defaultPlugin [orders] none) (by simp)
  ⟨delivers_serving defaultPlugin [orders] none, by simp, by decide!, by
    obtain ⟨m, hm, -, h1, -⟩ := h
    rw [hm]; exact h1⟩

theorem keys_of_rows {rows : List StatTable} (hd : (rows.map StatTable.RelName).Nodup) :
    GoMap.keys (assignAll [] (rows.flatMap rowEntries)) = rows.flatMap rowKeys := by
  rw [keys_assignAll_fresh, flatMap_entries_keys]
  · simp [GoMap.keys]
  · rw [flatMap_entries_keys]; exact nodup_flatMap_rowKeys hd
  · intro k _; simp [GoMap.keys]

theorem length_of_rows {rows : List StatTable} (hd : (rows.map StatTable.RelName).Nodup) :
    (assignAll [] (rows.flatMap rowEntries)).length = 14 * rows.length := by
  have h1 : (GoMap.keys (assignAll [] (rows.flatMap rowEntries))).length =
      (assignAll [] (rows.flatMap rowEntries)).length := by simp [GoMap.keys]
  rw [← h1, keys_of_rows hd, length_flatMap_rowKeys]

/-- C2: once the query delivered `N` rows with pairwise distinct relation names,
the map `FetchMetrics` returns is non-nil and has exactly `14 * N` entries, no two of
them under one key; it is the empty map exactly when `N = 0`. -/
theorem fetchMetrics_entry_count (p : PostgresTablePlugin) (sqlx : Sqlx)
    (rows : List StatTable) (hrows : Delivers p sqlx rows)
    (hd : (rows.map StatTable.RelName).Nodup) :
    ∃ m, (FetchMetrics p sqlx).metrics = some m ∧ (FetchMetrics p sqlx).err = none ∧
      m.length = 14 * rows.length ∧ (GoMap.keys m).Nodup ∧ (m = [] ↔ rows = []) := by
  obtain ⟨hm, he⟩ := fetchMetrics_of_delivers hrows
  have hlen := length_of_rows hd
  refine ⟨_, hm, he, hlen, ?_, ?_⟩
  · rw [keys_of_rows hd]; exact nodup_flatMap_rowKeys hd
  · have h0 : ∀ {α : Type} (l : List α), l = [] ↔ l.length = 0 :=
      fun l => List.length_eq_zero.symm
    rw [h0, h0 rows, hlen]
    omega

/-- C2 at two rows, `orders` and `users`: 28 entries. -/
theorem fetchMetrics_entry_count_witness :
    Delivers defaultPlugin (serving ⟨[.ok orders, .ok users], none⟩) [orders, users] ∧
    ([orders, users].map StatTable.RelName).Nodup ∧
    ∃ m, (FetchMetrics defaultPlugin (serving ⟨[.ok orders, .ok users], none⟩)).metrics = some m ∧
      (FetchMetrics defaultPlugin (serving ⟨[.ok orders, .ok users], none⟩)).err = none ∧
      m.length = 14 * [orders, users].length ∧ (GoMap.keys m).Nodup ∧
      (m = [] ↔ [orders, users] = []) :=
  ⟨delivers_serving defaultPlugin [orders, users] none, by decide!,
    fetchMetrics_entry_count defaultPlugin (serving ⟨[.ok orders, .ok users], none⟩)
      [orders, users] (delivers_serving defaultPlugin [orders, users] none) (by decide!)⟩

theorem metricKey_eq_slotKey (gf : String × String) (R : String) :
    metricKey gf.1 R gf.2 = slotKey R (toSlot gf) := by
  apply String.ext
  simp [metricKey, slotKey, toSlot, String.data_append, List.append_assoc]

theorem toSlot_mem : ∀ gf ∈ declaredFields, toSlot gf ∈ keySlots := by decide!

theorem toSlot_inj : ∀ a ∈ declaredFields, ∀ b ∈ declaredFields, toSlot a = toSlot b → a = b := by
  decide!

theorem keySlots_eq_map : keySlots = declaredFields.map toSlot := by decide!

theorem rowKeys_eq_metricKey (s : StatTable) :
    rowKeys s = declaredFields.map (fun gf => metricKey gf.1 s.RelName gf.2) := by
  rw [rowKeys, keySlots_eq_map, List.map_map]
  apply List.map_congr_left
  intro gf _
  exact (metricKey_eq_slotKey gf s.RelName).symm

/-- C3: when the query delivers one row `s` in one run and one row `t` with another
relation name in another run, each returned map holds the fourteen keys of its row
and no key of one map is a key of the other; the key construction
`"table." + group + "." + relname + "." + field` sends different (group, relname, field)
triples over the fourteen declared (group, field) pairs to different keys. -/
theorem row_key_sets_disjoint (p p' : PostgresTablePlugin) (sqlx sqlx' : Sqlx)
    (s t : StatTable) (hs : Delivers p sqlx [s]) (ht : Delivers p' sqlx' [t])
    (hne : s.RelName ≠ t.RelName) :
    ∃ m m', (FetchMetrics p sqlx).metrics = some m ∧ (FetchMetrics p' sqlx').metrics = some m' ∧
      GoMap.keys m = declaredFields.map (fun gf => metricKey gf.1 s.RelName gf.2) ∧
      GoMap.keys m' = declaredFields.map (fun gf => metricKey gf.1 t.RelName gf.2) ∧
      (∀ k, k ∈ GoMap.keys m → k ∉ GoMap.keys m') ∧
      (∀ a ∈ declaredFields, ∀ b ∈ declaredFields, ∀ R R' : String,
        metricKey a.1 R a.2 = metricKey b.1 R' b.2 ↔ (a = b ∧ R = R')) := by
  have hks : GoMap.keys (assignAll [] ([s].flatMap rowEntries)) = rowKeys s := by
    rw [keys_of_rows (by simp)]; simp
  have hkt : GoMap.keys (assignAll [] ([t].flatMap rowEntries)) = rowKeys t := by
    rw [keys_of_rows (by simp)]; simp
  refine ⟨_, _, (fetchMetrics_of_delivers hs).1, (fetchMetrics_of_delivers ht).1, ?_, ?_, ?_, ?_⟩
  · rw [hks, rowKeys_eq_metricKey]
  · rw [hkt, rowKeys_eq_metricKey]
  · rw [hks, hkt]; exact rowKeys_disjoint hne
  · intro a ha b hb R R'
    constructor
    · intro h
      rw [metricKey_eq_slotKey, metricKey_eq_slotKey] at h
      obtain ⟨hR, hab⟩ := slotKey_inj (toSlot_mem a ha) (toSlot_mem b hb) h
      exact ⟨toSlot_inj a ha b hb hab, hR⟩
    · rintro ⟨rfl, rfl⟩; rfl

/-- C3 at a relation named `x.seq_scan` against the relation `x`. -/
theorem row_key_sets_disjoint_witness :
    Delivers defaultPlugin (serving ⟨[.ok dottedName], none⟩) [dottedName] ∧
    Delivers defaultPlugin (serving ⟨[.ok plainName], none⟩) [plainName] ∧
    dottedName.RelName ≠ plainName.RelName ∧
    ∃ m m', (FetchMetrics defaultPlugin (serving ⟨[.ok dottedName], none⟩)).metrics = some m ∧
      (FetchMetrics defaultPlugin (serving ⟨[.ok plainName], none⟩)).metrics = some m' ∧
      (∀ k, k ∈ GoMap.keys m → k ∉ GoMap.keys m') := by
  have hne : dottedName.RelName ≠ plainName.RelName := by decide
  obtain ⟨m, m', h1, h2, -, -, h3, -⟩ :=
    row_key_sets_disjoint defaultPlugin defaultPlugin (serving ⟨[.ok dottedName], none⟩)
      (serving ⟨[.ok plainName], none⟩) dottedName plainName
      (delivers_serving defaultPlugin [dottedName] none)
      (delivers_serving defaultPlugin [plainName] none) hne
  exact ⟨delivers_serving defaultPlugin [dottedName] none,
    delivers_serving defaultPlugin [plainName] none, hne, m, m', h1, h2, h3⟩

theorem lookup_of_nodup (m : MetricMap) {rows : List StatTable}
    (hd : (rows.map StatTable.RelName).Nodup) {t : StatTable} (ht : t ∈ rows)
    {k : String} {v : Nat} (hkv : (k, v) ∈ rowEntries t) :
    GoMap.lookup (assignAll m (rows.flatMap rowEntries)) k = some v := by
  obtain ⟨pre, post, rfl⟩ := List.append_of_mem ht
  apply lookup_row_entry m pre post t _ hkv
  intro x hx heq
  rw [List.map_append, List.map_cons] at hd
  have h2 := (List.nodup_append.mp hd).2.1
  exact (List.nodup_cons.mp h2).1 (heq ▸ List.mem_map_of_mem StatTable.RelName hx)

/-- C4, amended: for rows with pairwise distinct relation names, `FetchMetrics`
returns the same map, key for key and value for value and with the same number of
entries, whatever order the query delivers the rows in. -/
theorem fetchMetrics_perm_of_distinct (p p' : PostgresTablePlugin) (sqlx sqlx' : Sqlx)
    (rows rows' : List StatTable) (hperm : rows.Perm rows')
    (hd : (rows.map StatTable.RelName).Nodup)
    (h : Delivers p sqlx rows) (h' : Delivers p' sqlx' rows') :
    ∃ m m', (FetchMetrics p sqlx).metrics = some m ∧ (FetchMetrics p' sqlx').metrics = some m' ∧
      (∀ k, GoMap.lookup m k = GoMap.lookup m' k) ∧ m.length = m'.length := by
  have hd' : (rows'.map StatTable.RelName).Nodup :=
    (List.Perm.nodup_iff (hperm.map StatTable.RelName)).mp hd
  refine ⟨_, _, (fetchMetrics_of_delivers h).1, (fetchMetrics_of_delivers h').1, ?_, ?_⟩
  · intro k
    by_cases hk : k ∈ rows.flatMap rowKeys
    · obtain ⟨t, ht, hkt⟩ := mem_flatMap_rowKeys.mp hk
      rw [← rowEntries_keys, List.mem_map] at hkt
      obtain ⟨⟨k0, v⟩, hkv, rfl⟩ := hkt
      rw [lookup_of_nodup [] hd ht hkv, lookup_of_nodup [] hd' (hperm.mem_iff.mp ht) hkv]
    · have hk' : k ∉ rows'.flatMap rowKeys := by
        intro hmem
        obtain ⟨t, ht, hkt⟩ := mem_flatMap_rowKeys.mp hmem
        exact hk (mem_flatMap_rowKeys.mpr ⟨t, hperm.mem_iff.mpr ht, hkt⟩)
      rw [lookup_assignAll_of_not_mem _ _ _ (by rwa [flatMap_entries_keys]),
        lookup_assignAll_of_not_mem _ _ _ (by rwa [flatMap_entries_keys])]
  · rw [length_of_rows hd, length_of_rows hd', hperm.length_eq]

/-- C4, amended, at the rows `orders`, `users` and their swap. -/
theorem fetchMetrics_perm_of_distinct_witness :
    [orders, users].Perm [users, orders] ∧
    ([orders, users].map StatTable.RelName).Nodup ∧
    Delivers defaultPlugin (serving ⟨[.ok orders, .ok users], none⟩) [orders, users] ∧
    Delivers defaultPlugin (serving ⟨[.ok users, .ok orders], none⟩) [users, orders] ∧
    ∃ m m', (FetchMetrics defaultPlugin (serving ⟨[.ok orders, .ok users], none⟩)).metrics = some m ∧
      (FetchMetrics defaultPlugin (serving ⟨[.ok users, .ok orders], none⟩)).metrics = some m' ∧
      (∀ k, GoMap.lookup m k = GoMap.lookup m' k) ∧ m.length = m'.length :=
  ⟨List.Perm.swap users orders [], by decide!,
    delivers_serving defaultPlugin [orders, users] none,
    delivers_serving defaultPlugin [users, orders] none,
    fetchMetrics_perm_of_distinct defaultPlugin defaultPlugin
      (serving ⟨[.ok orders, .ok users], none⟩) (serving ⟨[.ok users, .ok orders], none⟩)
      [orders, users] [users, orders] (List.Perm.swap users orders []) (by decide!)
      (delivers_serving defaultPlugin [orders, users] none)
      (delivers_serving defaultPlugin [users, orders] none)⟩

/-- C4 as stated fails: `orders` and `ordersArchive` carry one relation name and
the sequential-scan counts 5 and 2; delivered in this order the returned map holds 2
at `table.scan.orders.seq_scan`, delivered in the other order it holds 5. -/
theorem fetchMetrics_perm_counterexample :
    [orders, ordersArchive].Perm [ordersArchive, orders] ∧
    Delivers defaultPlugin (serving ⟨[.ok orders, .ok ordersArchive], none⟩)
      [orders, ordersArchive] ∧
    Delivers defaultPlugin (serving ⟨[.ok ordersArchive, .ok orders], none⟩)
      [ordersArchive, orders] ∧
    (FetchMetrics defaultPlugin (serving ⟨[.ok orders, .ok ordersArchive], none⟩)).metrics.bind
      (fun m => GoMap.lookup m "table.scan.orders.seq_scan") = some 2 ∧
    (FetchMetrics defaultPlugin (serving ⟨[.ok ordersArchive, .ok orders], none⟩)).metrics.bind
      (fun m => GoMap.lookup m "table.scan.orders.seq_scan") = some 5 :=
  ⟨List.Perm.swap ordersArchive orders [],
    delivers_serving defaultPlugin [orders, ordersArchive] none,
    delivers_serving defaultPlugin [ordersArchive, orders] none, by decide!, by decide!⟩

/-! ## Errors -/

theorem fetchMetrics_connect_error {p : PostgresTablePlugin} {sqlx : Sqlx} {e : Error}
    (hc : sqlx.Connect "postgres" (dataSourceName p) = .error e) :
    (FetchMetrics p sqlx).metrics = none ∧ (FetchMetrics p sqlx).err = some e := by
  simp [FetchMetrics, hc]

theorem fetchMetrics_query_error {p : PostgresTablePlugin} {sqlx : Sqlx} {db : DB} {e : Error}
    (hc : sqlx.Connect "postgres" (dataSourceName p) = .ok db)
    (hq : db.Queryx (statQuery p) = .error e) :
    (FetchMetrics p sqlx).metrics = none ∧ (FetchMetrics p sqlx).err = some e := by
  simp [FetchMetrics, hc, hq]

theorem rowLoop_scan_error (rows : List StatTable) (e : Error)
    (rest : List (Except Error StatTable)) (m : MetricMap) :
    rowLoop m (rows.map .ok ++ .error e :: rest) = .error e := by
  induction rows generalizing m with
  | nil => rfl
  | cons s rows ih => simpa [rowLoop] using ih (expandRow m s)

theorem fetchMetrics_scan_error {p : PostgresTablePlugin} {sqlx : Sqlx} {db : DB} {r : Rows}
    {e : Error} (rows : List StatTable) (rest : List (Except Error StatTable))
    (hc : sqlx.Connect "postgres" (dataSourceName p) = .ok db)
    (hq : db.Queryx (statQuery p) = .ok r) (hr : r.scans = rows.map .ok ++ .error e :: rest) :
    (FetchMetrics p sqlx).metrics = none ∧ (FetchMetrics p sqlx).err = some e := by
  simp [FetchMetrics, hc, hq, hr, rowLoop_scan_error]

/-- C5 fails in the code: the connection and the query succeed, the cursor delivers
the row `orders`, and fetching the next row fails with `unexpected EOF`, which
`rows.Next()` reports as false and `rows.Err()` holds. `FetchMetrics` returns the
fourteen entries of `orders` and a nil error. -/
theorem fetchMetrics_drops_fetch_error :
    (FetchMetrics defaultPlugin (serving ⟨[.ok orders], some ⟨"unexpected EOF"⟩⟩)).err = none ∧
    (FetchMetrics defaultPlugin (serving ⟨[.ok orders], some ⟨"unexpected EOF"⟩⟩)).metrics =
      (FetchMetrics defaultPlugin (serving ⟨[.ok orders], none⟩)).metrics ∧
    (FetchMetrics defaultPlugin
      (serving ⟨[.ok orders], some ⟨"unexpected EOF"⟩⟩)).metrics.map List.length = some 14 :=
  ⟨rfl, rfl, by decide!⟩

/-! ## Graph metadata -/

theorem flatMap_no_wildcard (relname : List Char) :
    ∀ cs : List Char, '#' ∉ cs →
      cs.flatMap (fun c => if c = '#' then relname else [c]) = cs := by
  intro cs
  induction cs with
  | nil => intro _; rfl
  | cons c cs ih =>
    intro h
    simp only [List.mem_cons, not_or] at h
    rw [List.flatMap_cons, ih h.2, if_neg (Ne.symm h.1)]
    rfl

theorem fillWildcard_last (pre relname : String) (h : '#' ∉ pre.data) :
    fillWildcard (pre ++ "#") relname = pre ++ relname := by
  apply String.ext
  have hs : ("#" : String).data = ['#'] := rfl
  simp only [fillWildcard, String.data_append, List.flatMap_append, hs,
    flatMap_no_wildcard relname.data pre.data h]
  simp

theorem rowKeys_eq_declaredKeys (u : UnicodeTables) (p : PostgresTablePlugin) (s : StatTable) :
    rowKeys s = declaredKeys (GraphDefinition u p) s.RelName := by
  have h1 : ("table.scan.#" : String) = "table.scan." ++ "#" := by decide
  have h2 : ("table.row.#" : String) = "table.row." ++ "#" := by decide
  have h3 : ("table.vacuum.#" : String) = "table.vacuum." ++ "#" := by decide
  have h4 : ("table.analyze.#" : String) = "table.analyze." ++ "#" := by decide
  have e1 := fillWildcard_last "table.scan." s.RelName (by decide)
  have e2 := fillWildcard_last "table.row." s.RelName (by decide)
  have e3 := fillWildcard_last "table.vacuum." s.RelName (by decide)
  have e4 := fillWildcard_last "table.analyze." s.RelName (by decide)
  have hdot : ∀ (a b f : String), a ++ b ++ "." ++ f = a ++ b ++ ("." ++ f) := by
    intro a b f
    apply String.ext
    simp [String.data_append, List.append_assoc]
  have d1 : ("." : String) ++ "seq_scan" = ".seq_scan" := by decide
  have d2 : ("." : String) ++ "seq_tup_read" = ".seq_tup_read" := by decide
  have d3 : ("." : String) ++ "idx_scan" = ".idx_scan" := by decide
  have d4 : ("." : String) ++ "idx_tup_fetch" = ".idx_tup_fetch" := by decide
  have d5 : ("." : String) ++ "n_tup_ins" = ".n_tup_ins" := by decide
  have d6 : ("." : String) ++ "n_tup_upd" = ".n_tup_upd" := by decide
  have d7 : ("." : String) ++ "n_tup_del" = ".n_tup_del" := by decide
  have d8 : ("." : String) ++ "n_tup_hot_upd" = ".n_tup_hot_upd" := by decide
  have d9 : ("." : String) ++ "n_live_tup" = ".n_live_tup" := by decide
  have d10 : ("." : String) ++ "n_dead_tup" = ".n_dead_tup" := by decide
  have d11 : ("." : String) ++ "vacuum_count" = ".vacuum_count" := by decide
  have d12 : ("." : String) ++ "autovacuum_count" = ".autovacuum_count" := by decide
  have d13 : ("." : String) ++ "analyze_count" = ".analyze_count" := by decide
  have d14 : ("." : String) ++ "autoanalyze_count" = ".autoanalyze_count" := by decide
  simp only [declaredKeys, GraphDefinition, List.flatMap_cons, List.flatMap_nil, List.map_cons,
    List.map_nil, List.append_nil, List.cons_append, List.nil_append, h1, h2, h3, h4, e1, e2,
    e3, e4, hdot, d1, d2, d3, d4, d5, d6, d7, d8, d9, d10, d11, d12, d13, d14, rowKeys,
    keySlots, slotKey]

/-- C6: for every configuration `GraphDefinition` declares exactly the four graphs
`table.scan.#`, `table.row.#`, `table.vacuum.#`, `table.analyze.#`, and the keys of
the map `FetchMetrics` returns for a single delivered row named `R` are exactly the
fourteen keys obtained from the declared graph names by replacing `#` with `R` and
appending `.` and a metric name declared under that graph. -/
theorem fetchMetrics_keys_match_graphs (u : UnicodeTables) (p : PostgresTablePlugin)
    (sqlx : Sqlx) (s : StatTable) (hs : Delivers p sqlx [s]) :
    (GraphDefinition u p).map Prod.fst =
      ["table.scan.#", "table.row.#", "table.vacuum.#", "table.analyze.#"] ∧
    ∃ m, (FetchMetrics p sqlx).metrics = some m ∧ m.length = 14 ∧
      GoMap.keys m = declaredKeys (GraphDefinition u p) s.RelName ∧
      (∀ k, k ∈ GoMap.keys m ↔ k ∈ declaredKeys (GraphDefinition u p) s.RelName) := by
  have hk : GoMap.keys (assignAll [] ([s].flatMap rowEntries)) =
      declaredKeys (GraphDefinition u p) s.RelName := by
    rw [keys_of_rows (by simp), ← rowKeys_eq_declaredKeys]; simp
  refine ⟨rfl, _, (fetchMetrics_of_delivers hs).1, ?_, hk, fun k => by rw [hk]⟩
  have hone : ([s].map StatTable.RelName).Nodup := by simp
  simpa using length_of_rows hone

/-- C6 at the row `orders`. -/
theorem fetchMetrics_keys_match_graphs_witness :
    Delivers defaultPlugin (serving ⟨[.ok orders], none⟩) [orders] ∧
    ((GraphDefinition asciiTables defaultPlugin).map Prod.fst =
      ["table.scan.#", "table.row.#", "table.vacuum.#", "table.analyze.#"] ∧
    ∃ m, (FetchMetrics defaultPlugin (serving ⟨[.ok orders], none⟩)).metrics = some m ∧
      m.length = 14 ∧
      GoMap.keys m = declaredKeys (GraphDefinition asciiTables defaultPlugin) orders.RelName ∧
      (∀ k, k ∈ GoMap.keys m ↔
        k ∈ declaredKeys (GraphDefinition asciiTables defaultPlugin) orders.RelName)) :=
  ⟨delivers_serving defaultPlugin [orders] none,
    fetchMetrics_keys_match_graphs asciiTables defaultPlugin (serving ⟨[.ok orders], none⟩)
      orders (delivers_serving defaultPlugin [orders] none)⟩

/-- C7: for every configuration, the metrics `GraphDefinition` declares with
`Diff = false` are exactly `n_live_tup` and `n_dead_tup`, and the metrics it declares
with `Diff = true` are exactly the twelve other declared names. -/
theorem graphDefinition_diff_flags (u : UnicodeTables) (p : PostgresTablePlugin) :
    (((GraphDefinition u p).flatMap (fun g => g.2.Metrics)).filter
      (fun mt => !mt.Diff)).map Metrics.Name = ["n_live_tup", "n_dead_tup"] ∧
    (((GraphDefinition u p).flatMap (fun g => g.2.Metrics)).filter
      (fun mt => mt.Diff)).map Metrics.Name =
      ["seq_scan", "seq_tup_read", "idx_scan", "idx_tup_fetch", "n_tup_ins", "n_tup_upd",
        "n_tup_del", "n_tup_hot_upd", "vacuum_count", "autovacuum_count", "analyze_count",
        "autoanalyze_count"] ∧
    ((GraphDefinition u p).flatMap (fun g => g.2.Metrics)).length = 14 :=
  ⟨rfl, rfl, rfl⟩

theorem hasPrefix_append (a b : String) : hasPrefix (a ++ b) a = true := by
  simp [hasPrefix, String.data_append]

theorem hasSuffix_append (a b : String) : hasSuffix (a ++ b) b = true := by
  simp [hasSuffix, String.data_append]

theorem graphDefinition_labels (u : UnicodeTables) (p : PostgresTablePlugin) :
    ∀ g ∈ GraphDefinition u p, hasPrefix g.2.Label (Title u p.Prefix) = true := by
  intro g hg
  simp only [GraphDefinition, List.mem_cons, List.mem_singleton, List.not_mem_nil,
    or_false] at hg
  rcases hg with rfl | rfl | rfl | rfl <;> exact hasPrefix_append _ _

/-- The part of C8 the code keeps: once `MetricKeyPrefix` has been called, every
label of `GraphDefinition` starts with the title-cased metric-key prefix. -/
theorem graphDefinition_labels_after_call (u : UnicodeTables) (p : PostgresTablePlugin) :
    ∀ g ∈ GraphDefinition u (MetricKeyPrefix p).2,
      hasPrefix g.2.Label (Title u (MetricKeyPrefix p).1) = true := by
  have h : (MetricKeyPrefix p).2.Prefix = (MetricKeyPrefix p).1 := by
    unfold MetricKeyPrefix
    split <;> rfl
  rw [← h]
  exact graphDefinition_labels u (MetricKeyPrefix p).2

/-- C8 fails in the code: with an empty `Prefix` and no earlier call of
`MetricKeyPrefix`, `MetricKeyPrefix` reports `postgres`, whose title case is
`Postgres`, and the four labels of `GraphDefinition` are ` Table Scans`,
` Table Rows`, ` Table Vacuume Counts` and ` Table Analyze Counts`: none of them
starts with `Postgres`. -/
theorem graphDefinition_labels_without_default :
    (MetricKeyPrefix emptyPrefixPlugin).1 = "postgres" ∧
    Title asciiTables (MetricKeyPrefix emptyPrefixPlugin).1 = "Postgres" ∧
    (GraphDefinition asciiTables emptyPrefixPlugin).map (fun g => g.2.Label) =
      [" Table Scans", " Table Rows", " Table Vacuume Counts", " Table Analyze Counts"] ∧
    (GraphDefinition asciiTables emptyPrefixPlugin).map
      (fun g => hasPrefix g.2.Label (Title asciiTables (MetricKeyPrefix emptyPrefixPlugin).1)) =
      [false, false, false, false] ∧
    (GraphDefinition asciiTables (MetricKeyPrefix emptyPrefixPlugin).2).map (fun g => g.2.Label) =
      ["Postgres Table Scans", "Postgres Table Rows", "Postgres Table Vacuume Counts",
        "Postgres Table Analyze Counts"] := by
  decide!

/-! ## The query -/

/-- C9: after a successful connect `FetchMetrics` sends one query, and its text is
`SELECT * FROM pg_stat_user_tables` when `Option` is empty and that text, one space
and `Option` unchanged when `Option` is not empty; the base query starts the text
and `Option` ends it. -/
theorem fetchMetrics_query_text (p : PostgresTablePlugin) (sqlx : Sqlx) (db : DB)
    (hc : sqlx.Connect "postgres" (dataSourceName p) = .ok db) :
    (FetchMetrics p sqlx).calls =
      [ .connect "postgres" (dataSourceName p),
        .queryx (if p.Option = "" then "SELECT * FROM pg_stat_user_tables"
          else "SELECT * FROM pg_stat_user_tables" ++ " " ++ p.Option),
        .close ] ∧
    hasPrefix (if p.Option = "" then "SELECT * FROM pg_stat_user_tables"
      else "SELECT * FROM pg_stat_user_tables" ++ " " ++ p.Option)
      "SELECT * FROM pg_stat_user_tables" = true ∧
    hasSuffix (if p.Option = "" then "SELECT * FROM pg_stat_user_tables"
      else "SELECT * FROM pg_stat_user_tables" ++ " " ++ p.Option) p.Option = true := by
  have hq : statQuery p = (if p.Option = "" then "SELECT * FROM pg_stat_user_tables"
      else "SELECT * FROM pg_stat_user_tables" ++ " " ++ p.Option) := by
    unfold statQuery
    by_cases h : p.Option = "" <;> simp [h]
  refine ⟨?_, ?_, ?_⟩
  · rw [← hq]
    unfold FetchMetrics
    rw [hc]
    cases hqx : db.Queryx (statQuery p) with
    | error e => simp [hqx]
    | ok rows =>
      cases hl : rowLoop [] rows.scans with
      | error e => simp [hqx, hl]
      | ok m => simp [hqx, hl]
  · by_cases h : p.Option = ""
    · rw [if_pos h]; decide
    · rw [if_neg h]
      have : "SELECT * FROM pg_stat_user_tables" ++ " " ++ p.Option =
          "SELECT * FROM pg_stat_user_tables" ++ (" " ++ p.Option) := by
        apply String.ext; simp [String.data_append]
      rw [this]
      exact hasPrefix_append _ _
  · by_cases h : p.Option = ""
    · rw [if_pos h, h]; decide
    · rw [if_neg h]
      exact hasSuffix_append _ _

/-- C9 with the option `ORDER BY relname`. -/
theorem fetchMetrics_query_text_witness :
    (serving ⟨[.ok orders], none⟩).Connect "postgres" (dataSourceName filteredPlugin) =
      .ok ⟨fun _ => .ok ⟨[.ok orders], none⟩⟩ ∧
    (FetchMetrics filteredPlugin (serving ⟨[.ok orders], none⟩)).calls =
      [ .connect "postgres"
          "user=postgres password= host=localhost port=5432 dbname= sslmode=disable connect_timeout=5",
        .queryx "SELECT * FROM pg_stat_user_tables ORDER BY relname",
        .close ] := by
  refine ⟨rfl, ?_⟩
  rw [(fetchMetrics_query_text filteredPlugin (serving ⟨[.ok orders], none⟩)
    ⟨fun _ => .ok ⟨[.ok orders], none⟩⟩ rfl).1]
  decide!

/-! ## The metric key prefix -/

/-- C10: `MetricKeyPrefix` returns `postgres` for an empty `Prefix` and `Prefix`
itself otherwise; afterwards the plugin is the plugin before with `Prefix` set to the
returned string, every other field as it was, and a second call returns the same
string and changes nothing. -/
theorem metricKeyPrefix_default (p : PostgresTablePlugin) :
    (MetricKeyPrefix p).1 = (if p.Prefix = "" then "postgres" else p.Prefix) ∧
    (MetricKeyPrefix p).2 = { p with Prefix := (MetricKeyPrefix p).1 } ∧
    (MetricKeyPrefix p).2.Prefix = (MetricKeyPrefix p).1 ∧
    (MetricKeyPrefix (MetricKeyPrefix p).2).1 = (MetricKeyPrefix p).1 ∧
    (MetricKeyPrefix (MetricKeyPrefix p).2).2 = (MetricKeyPrefix p).2 := by
  by_cases h : p.Prefix = ""
  · have hne : ("postgres" : String) ≠ "" := by decide
    simp [MetricKeyPrefix, h, hne]
  · simp [MetricKeyPrefix, h]

end MpPostgresTable
